import Mathlib

/-!
Shallow embedding of `src/basics/src/app.ts`: the observable project store
(`ProjectState`), the field validator (`validate`), and the list-container
listener registered by `ProjectList.configure`.  JS numbers are modeled as
rationals, JS strings as Lean strings, and the side effects of listener
callbacks as an explicit invocation log carried in the store state.
-/

/-- `enum ProjectStatus { Active, Finished }` (app.ts 37-40). -/
inductive ProjectStatus where
  | Active
  | Finished
deriving DecidableEq, Repr

/-- `class Project` (app.ts 42-50): `id`, `title`, `description`, `people`,
`status`.  The JS number `people` is modeled as a rational. -/
structure Project where
  id : String
  title : String
  description : String
  people : ℚ
  status : ProjectStatus
deriving DecidableEq, Repr

/-- The non-`status` fields of a record, used to state frame conditions. -/
def Project.core (p : Project) : String × String × String × ℚ :=
  (p.id, p.title, p.description, p.people)

/-- The observable state of the `ProjectState` singleton (app.ts 54-107):
`projects` is the private record array, `listeners` the registered listener
callbacks (identified by registration tokens), and `log` the accumulated
sequence of listener invocations performed so far, each entry carrying the
listener token and the snapshot (`this.projects.slice()`) it was passed. -/
structure StoreState where
  projects : List Project
  listeners : List Nat
  log : List (Nat × List Project)
deriving DecidableEq, Repr

/-- The freshly constructed singleton: `private projects: Project[] = []`
(app.ts 64) and `protected listeners: Listener<T>[] = []` (app.ts 55). -/
def initialState : StoreState :=
  { projects := [], listeners := [], log := [] }

/-- `addListener` (app.ts 57-59): `this.listeners.push(listener)`. -/
def addListener (st : StoreState) (l : Nat) : StoreState :=
  { st with listeners := st.listeners ++ [l] }

/-- The invocation sequence one `updateListeners` call performs (app.ts 93-97):
each registered listener, in registration order, applied to
`this.projects.slice()` — a copy of the current sequence, modeled as a value
snapshot. -/
def updateListenersCalls (listeners : List Nat) (projects : List Project) :
    List (Nat × List Project) :=
  listeners.map (fun l => (l, projects))

/-- `updateListeners` (app.ts 93-97) as a state transformer: it appends its
invocation sequence to the log and touches nothing else. -/
def updateListeners (st : StoreState) : StoreState :=
  { st with log := st.log ++ updateListenersCalls st.listeners st.projects }

/-- `addProject` (app.ts 80-91).  `Math.random().toString()` is a sample from
an external source of randomness; it enters the model as the `randomId`
argument.  The new record is pushed and then `updateListeners` runs. -/
def addProject (st : StoreState) (randomId title desc : String) (people : ℚ) :
    StoreState :=
  updateListeners
    { st with
        projects := st.projects ++
          [{ id := randomId, title := title, description := desc,
             people := people, status := ProjectStatus.Active }] }

/-- The in-place mutation `prj.status = newStatus` performed on the first
record returned by `this.projects.find((prj) => prj.id === projectId)`
(app.ts 100-103): update the status of the first id match, keep every other
record as it was. -/
def setStatusFirst : List Project → String → ProjectStatus → List Project
  | [], _, _ => []
  | prj :: rest, pid, s =>
    if prj.id == pid then { prj with status := s } :: rest
    else prj :: setStatusFirst rest pid s

/-- `moveProject` (app.ts 99-106): find the first id match; if it exists and
its status differs from `newStatus`, mutate it in place and notify; otherwise
do nothing. -/
def moveProject (st : StoreState) (projectId : String) (newStatus : ProjectStatus) :
    StoreState :=
  match st.projects.find? (fun prj => prj.id == projectId) with
  | some prj =>
    if prj.status ≠ newStatus then
      updateListeners
        { st with projects := setStatusFirst st.projects projectId newStatus }
    else st
  | none => st

/-- `value: string | number` of the `Validatable` interface (app.ts 113). -/
inductive Value where
  | str (s : String)
  | num (q : ℚ)
deriving DecidableEq, Repr

/-- JS `String.prototype.trim`: strip leading and trailing whitespace. -/
def jsTrim (s : String) : String :=
  ⟨((s.data.dropWhile Char.isWhitespace).reverse.dropWhile Char.isWhitespace).reverse⟩

/-- JS `.toString()` as `validate` applies it to `value` (app.ts 126): a
string is returned unchanged; a number renders as its decimal or fractional
form, which is never empty and never all-whitespace. -/
def Value.toStr : Value → String
  | Value.str s => s
  | Value.num q =>
      if q.den == 1 then toString q.num
      else toString q.num ++ "/" ++ toString q.den

/-- `interface Validatable` (app.ts 112-119).  Absent optional fields are
`none`; since `validate` tests `required` for truthiness, an absent
`required` behaves exactly as `false` and is modeled by the default. -/
structure Validatable where
  value : Value
  required : Bool := false
  minLength : Option ℚ := none
  maxLength : Option ℚ := none
  min : Option ℚ := none
  max : Option ℚ := none
deriving DecidableEq, Repr

/-- `validate` (app.ts 121-154), check by check in source order.  Each `if`
guard `x != null && typeof value === "..."` becomes a match on the optional
field together with the `Value` constructor.  The `console.log` call has no
observable effect on the result and is omitted. -/
def validate (o : Validatable) : Bool :=
  let isValid := true
  let isValid :=
    if o.required then isValid && ((jsTrim o.value.toStr).length != 0)
    else isValid
  let isValid :=
    match o.minLength, o.value with
    | some ml, Value.str s => isValid && decide ((s.length : ℚ) ≥ ml)
    | _, _ => isValid
  let isValid :=
    match o.maxLength, o.value with
    | some ml, Value.str s => isValid && decide ((s.length : ℚ) ≤ ml)
    | _, _ => isValid
  let isValid :=
    match o.min, o.value with
    | some m, Value.num q => isValid && decide (q > m)
    | _, _ => isValid
  let isValid :=
    match o.max, o.value with
    | some m, Value.num q => isValid && decide (q < m)
    | _, _ => isValid
  isValid

/-- The `peopleConf` constraint object built by `gatherUserInput`
(app.ts 217-222): `{ value, required: true, min: 1, max: 10 }`. -/
def peopleConf (n : ℚ) : Validatable :=
  { value := Value.num n, required := true, min := some 1, max := some 10 }

/-- The `"active" | "finished"` union type of `ProjectList.projectType`
(app.ts 311). -/
inductive ProjectType where
  | active
  | finished
deriving DecidableEq, Repr

/-- The status category a list of the given type keeps, as fixed by the
branch in the listener body (app.ts 358-361). -/
def statusFor : ProjectType → ProjectStatus
  | ProjectType.active => ProjectStatus.Active
  | ProjectType.finished => ProjectStatus.Finished

/-- `relevantProjects` as computed by the store listener registered in
`ProjectList.configure` (app.ts 356-362): filter the received snapshot by the
container's own fixed category. -/
def relevantProjects (projectType : ProjectType) (projects : List Project) :
    List Project :=
  projects.filter (fun prj =>
    match projectType with
    | ProjectType.active => prj.status == ProjectStatus.Active
    | ProjectType.finished => prj.status == ProjectStatus.Finished)

/-- One activation of the list-container listener (app.ts 356-366): the new
`assignedProjects` value wholly replaces the previous one, which is
discarded. -/
def listenerStep (projectType : ProjectType) (_oldAssigned snapshot : List Project) :
    List Project :=
  relevantProjects projectType snapshot

/-- A small concrete store used to instantiate hypotheses: one project
added and then one listener registered. -/
def sampleState : StoreState :=
  addListener (addProject initialState "0.5" "A" "d" 3) 0

/-- A reachable store (one listener, two `addProject` calls whose random
samples collide, one move) in which two records share the id `"0.5"`: the
first has status `Finished`, the second status `Active`. -/
def dupState : StoreState :=
  moveProject
    (addProject (addProject (addListener initialState 1) "0.5" "A" "a" 1)
      "0.5" "B" "b" 2)
    "0.5" ProjectStatus.Finished

/-- A store with one listener registered before a single project is added. -/
def roundTripState : StoreState :=
  addProject (addListener initialState 7) "0.5" "A" "d" 3

/-!  Supporting lemmas about `setStatusFirst` and `List.find?`. -/

theorem find?_setStatusFirst (pid : String) (s : ProjectStatus) :
    ∀ (l : List Project) (prj : Project),
      l.find? (fun p => p.id == pid) = some prj →
      ∃ i, ∃ h : i < l.length,
        l.get ⟨i, h⟩ = prj ∧
        (∀ j, ∀ hj : j < l.length, j < i → (l.get ⟨j, hj⟩).id ≠ pid) ∧
        setStatusFirst l pid s = l.set i { prj with status := s } := by
  intro l
  induction l with
  | nil => intro prj h; simp at h
  | cons p rest ih =>
    intro prj h
    by_cases hid : (p.id == pid) = true
    · simp only [List.find?, hid] at h
      injection h with h
      subst h
      refine ⟨0, Nat.succ_pos _, rfl, ?_, ?_⟩
      · intro j hj hj0; exact absurd hj0 (Nat.not_lt_zero j)
      · simp [setStatusFirst, hid]
    · have hid2 : (p.id == pid) = false := by simpa using hid
      simp only [List.find?, hid2] at h
      obtain ⟨i, hi, hget, hbef, hset⟩ := ih prj h
      refine ⟨i + 1, Nat.succ_lt_succ hi, hget, ?_, ?_⟩
      · intro j hj hjlt
        cases j with
        | zero => simpa using hid2
        | succ j =>
          exact hbef j (Nat.lt_of_succ_lt_succ hj) (Nat.lt_of_succ_lt_succ hjlt)
      · simp only [setStatusFirst, hid2, Bool.false_eq_true, if_false, hset, List.set]

theorem find?_setStatusFirst_self (pid : String) (s : ProjectStatus) :
    ∀ (l : List Project) (prj : Project),
      l.find? (fun p => p.id == pid) = some prj →
      (setStatusFirst l pid s).find? (fun p => p.id == pid) =
        some { prj with status := s } := by
  intro l
  induction l with
  | nil => intro prj h; simp at h
  | cons p rest ih =>
    intro prj h
    by_cases hid : (p.id == pid) = true
    · simp only [List.find?, hid] at h
      injection h with h
      subst h
      simp only [setStatusFirst, if_pos hid, List.find?, hid]
    · have hid2 : (p.id == pid) = false := by simpa using hid
      simp only [List.find?, hid2] at h
      simp only [setStatusFirst, hid2, Bool.false_eq_true, if_false, List.find?]
      exact ih prj h

theorem setStatusFirst_setStatusFirst (pid : String) (s1 s2 : ProjectStatus) :
    ∀ l : List Project,
      setStatusFirst (setStatusFirst l pid s1) pid s2 = setStatusFirst l pid s2 := by
  intro l
  induction l with
  | nil => rfl
  | cons p rest ih =>
    by_cases hid : (p.id == pid) = true
    · simp only [setStatusFirst, if_pos hid]
    · have hid2 : (p.id == pid) = false := by simpa using hid
      simp only [setStatusFirst, hid2, Bool.false_eq_true, if_false, ih]

theorem setStatusFirst_of_status_eq (pid : String) :
    ∀ (l : List Project) (prj : Project),
      l.find? (fun p => p.id == pid) = some prj →
      setStatusFirst l pid prj.status = l := by
  intro l
  induction l with
  | nil => intro prj h; simp at h
  | cons p rest ih =>
    intro prj h
    by_cases hid : (p.id == pid) = true
    · simp only [List.find?, hid] at h
      injection h with h
      subst h
      simp only [setStatusFirst, if_pos hid]
    · have hid2 : (p.id == pid) = false := by simpa using hid
      simp only [List.find?, hid2] at h
      simp only [setStatusFirst, hid2, Bool.false_eq_true, if_false, ih prj h]

theorem setStatusFirst_map_core (pid : String) (s : ProjectStatus) :
    ∀ l : List Project,
      (setStatusFirst l pid s).map Project.core = l.map Project.core := by
  intro l
  induction l with
  | nil => rfl
  | cons p rest ih =>
    by_cases hid : (p.id == pid) = true
    · simp only [setStatusFirst, if_pos hid, List.map_cons]
      rfl
    · have hid2 : (p.id == pid) = false := by simpa using hid
      simp only [setStatusFirst, hid2, Bool.false_eq_true, if_false, List.map_cons, ih]

/-!  Claim theorems: the validator. -/

/-- C4: for a numeric value, a present `min` bound rejects unless
`value > min` (strict, exclusive) and a present `max` bound rejects unless
`value < max` (strict, exclusive); in particular `validate` on value 5 with
min 5 is false, on value 5.0001 with min 5 is true, and under the input
form's people constraints (min 1, max 10) the boundary values 1 and 10 are
rejected. -/
theorem validate_min_max_strict :
    (∀ (v : Validatable) (q m : ℚ), v.value = Value.num q → v.min = some m →
      ¬ q > m → validate v = false) ∧
    (∀ (v : Validatable) (q m : ℚ), v.value = Value.num q → v.max = some m →
      ¬ q < m → validate v = false) ∧
    validate { value := Value.num 5, min := some 5 } = false ∧
    validate { value := Value.num (5.0001 : ℚ), min := some 5 } = true ∧
    validate (peopleConf 1) = false ∧
    validate (peopleConf 10) = false := by
  refine ⟨?_, ?_, by decide, ?_, by decide, by decide⟩
  · rintro ⟨val, req, mL, xL, mi, ma⟩ q m hv hm hq
    dsimp only at hv hm
    subst hv; subst hm
    have hd : decide (q > m) = false := by simpa using hq
    cases req <;> cases mL <;> cases xL <;> cases ma <;> simp [validate, hd]
  · rintro ⟨val, req, mL, xL, mi, ma⟩ q m hv hm hq
    dsimp only at hv hm
    subst hv; subst hm
    have hd : decide (q < m) = false := by simpa using hq
    cases req <;> cases mL <;> cases xL <;> cases mi <;> simp [validate, hd]
  · simp [validate]
    norm_num

/-- C4 witness: the strict lower bound rejects the numeric value 3 against
the bound 5. -/
theorem validate_min_max_strict_witness :
    validate { value := Value.num 3, min := some 5 } = false :=
  validate_min_max_strict.1 { value := Value.num 3, min := some 5 } 3 5 rfl rfl
    (by decide)

/-- C5: `validate` is a total boolean function; with `required` set, the
result is false whenever the value's string form trims to the empty string —
in particular the empty string with `required` is rejected — and with
`required` false the result is exactly the conjunction of the four remaining
checks, none of which inspects emptiness. -/
theorem validate_total_required_spec :
    (∀ v : Validatable, validate v = true ∨ validate v = false) ∧
    (∀ v : Validatable, v.required = true →
      (jsTrim v.value.toStr).length = 0 → validate v = false) ∧
    validate { value := Value.str "", required := true } = false ∧
    (∀ v : Validatable, v.required = false →
      validate v =
        ((match v.minLength, v.value with
          | some ml, Value.str s => decide ((s.length : ℚ) ≥ ml)
          | _, _ => true) &&
         (match v.maxLength, v.value with
          | some ml, Value.str s => decide ((s.length : ℚ) ≤ ml)
          | _, _ => true) &&
         (match v.min, v.value with
          | some m, Value.num q => decide (q > m)
          | _, _ => true) &&
         (match v.max, v.value with
          | some m, Value.num q => decide (q < m)
          | _, _ => true))) := by
  refine ⟨?_, ?_, by decide, ?_⟩
  · intro v
    cases h : validate v
    · exact Or.inr rfl
    · exact Or.inl rfl
  · rintro ⟨val, req, mL, xL, mi, ma⟩ hreq h0
    dsimp only at hreq h0
    subst hreq
    cases val <;> cases mL <;> cases xL <;> cases mi <;> cases ma <;>
      simp_all [validate, Value.toStr]
  · rintro ⟨val, req, mL, xL, mi, ma⟩ hreq
    dsimp only at hreq ⊢
    subst hreq
    cases val <;> cases mL <;> cases xL <;> cases mi <;> cases ma <;>
      simp [validate, Bool.and_assoc]

/-- C5 witness: a whitespace-only required value trims to empty and is
rejected. -/
theorem validate_total_required_witness :
    validate { value := Value.str " ", required := true } = false :=
  validate_total_required_spec.2.1 { value := Value.str " ", required := true }
    rfl (by decide)

/-- C6: `minLength`/`maxLength` apply only to string values and are
inclusive: a string shorter than `minLength` or longer than `maxLength` is
rejected, a string of exactly the bound's length passes, and on numeric
values both length constraints are ignored entirely. -/
theorem validate_length_bounds_inclusive :
    (∀ (v : Validatable) (s : String) (m : ℚ), v.value = Value.str s →
      v.minLength = some m → ¬ ((s.length : ℚ) ≥ m) → validate v = false) ∧
    (∀ (v : Validatable) (s : String) (m : ℚ), v.value = Value.str s →
      v.maxLength = some m → ¬ ((s.length : ℚ) ≤ m) → validate v = false) ∧
    validate { value := Value.str "ab", minLength := some 5 } = false ∧
    validate { value := Value.str "abcde", minLength := some 5,
               maxLength := some 5 } = true ∧
    (∀ (q : ℚ) (req : Bool) (mL xL mi ma : Option ℚ),
      validate { value := Value.num q, required := req, minLength := mL,
                 maxLength := xL, min := mi, max := ma } =
        validate { value := Value.num q, required := req, min := mi,
                   max := ma }) := by
  refine ⟨?_, ?_, by decide, by decide, ?_⟩
  · rintro ⟨val, req, mL, xL, mi, ma⟩ s m hv hm h
    dsimp only at hv hm
    subst hv; subst hm
    have hd : decide ((s.length : ℚ) ≥ m) = false := by simpa using h
    cases req <;> cases xL <;> cases mi <;> cases ma <;> simp [validate, hd]
  · rintro ⟨val, req, mL, xL, mi, ma⟩ s m hv hm h
    dsimp only at hv hm
    subst hv; subst hm
    have hd : decide ((s.length : ℚ) ≤ m) = false := by simpa using h
    cases req <;> cases mL <;> cases mi <;> cases ma <;> simp [validate, hd]
  · intro q req mL xL mi ma
    cases req <;> cases mL <;> cases xL <;> cases mi <;> cases ma <;>
      simp [validate]

/-- C6 witness: the one-character string is rejected against minLength 3. -/
theorem validate_length_bounds_inclusive_witness :
    validate { value := Value.str "a", minLength := some 3 } = false :=
  validate_length_bounds_inclusive.1 { value := Value.str "a", minLength := some 3 }
    "a" 3 rfl rfl (by decide)

/-- C10: when no constraint applies — `required` false, length bounds absent
or the value not a string, numeric bounds absent or the value not a number —
`validate` returns true; in particular a bare value with no constraints at
all is vacuously valid. -/
theorem validate_vacuous_true :
    (∀ v : Validatable, v.required = false →
      (v.minLength = none ∨ ∀ s, v.value ≠ Value.str s) →
      (v.maxLength = none ∨ ∀ s, v.value ≠ Value.str s) →
      (v.min = none ∨ ∀ q, v.value ≠ Value.num q) →
      (v.max = none ∨ ∀ q, v.value ≠ Value.num q) →
      validate v = true) ∧
    (∀ val : Value, validate { value := val } = true) := by
  constructor
  · rintro ⟨val, req, mL, xL, mi, ma⟩ hreq h1 h2 h3 h4
    dsimp only at hreq h1 h2 h3 h4
    subst hreq
    cases val with
    | str s =>
      rcases h1 with h1 | h1
      · subst h1
        rcases h2 with h2 | h2
        · subst h2
          cases mi <;> cases ma <;> simp [validate]
        · exact absurd rfl (h2 s)
      · exact absurd rfl (h1 s)
    | num q =>
      rcases h3 with h3 | h3
      · subst h3
        rcases h4 with h4 | h4
        · subst h4
          cases mL <;> cases xL <;> simp [validate]
        · exact absurd rfl (h4 q)
      · exact absurd rfl (h3 q)
  · intro val
    cases val <;> simp [validate]

/-- C10 witness: a numeric value with only a (string-directed, hence
inapplicable) minLength constraint is accepted. -/
theorem validate_vacuous_true_witness :
    validate { value := Value.num 7, minLength := some 3 } = true :=
  validate_vacuous_true.1 { value := Value.num 7, minLength := some 3 } rfl
    (Or.inr fun _ h => Value.noConfusion h)
    (Or.inr fun _ h => Value.noConfusion h)
    (Or.inl rfl) (Or.inl rfl)

/-!  Claim theorems: the observable store. -/

/-- C3: one `updateListeners` call invokes each registered listener exactly
once, in registration order (the invocation sequence is the listener list
itself, each paired with its snapshot), every snapshot passed equals the
internal sequence in content (the `slice()` copy is modeled by passing the
sequence by value, so nothing a listener does with its snapshot can reach the
store), the store's own fields are unchanged by the notification, and
registration order is append order. -/
theorem updateListeners_spec (st : StoreState) :
    (updateListeners st).log =
      st.log ++ updateListenersCalls st.listeners st.projects ∧
    (updateListenersCalls st.listeners st.projects).map Prod.fst = st.listeners ∧
    (∀ c ∈ updateListenersCalls st.listeners st.projects, c.snd = st.projects) ∧
    (updateListeners st).projects = st.projects ∧
    (updateListeners st).listeners = st.listeners ∧
    (∀ (st2 : StoreState) (l : Nat),
      (addListener st2 l).listeners = st2.listeners ++ [l]) := by
  refine ⟨rfl, ?_, ?_, rfl, rfl, fun st2 l => rfl⟩
  · simp [updateListenersCalls, List.map_map, Function.comp_def]
  · intro c hc
    simp only [updateListenersCalls, List.mem_map] at hc
    obtain ⟨l, _, hc⟩ := hc
    rw [← hc]

/-- C3 witness: in the sample store, the single registered listener's call
carries a snapshot equal to the internal sequence. -/
theorem updateListeners_spec_witness :
    ((0 : Nat), sampleState.projects).snd = sampleState.projects :=
  (updateListeners_spec sampleState).2.2.1 ((0 : Nat), sampleState.projects)
    (by decide)

/-- C7: `moveProject` preserves the length and order of the sequence and
every field of every record except possibly a status; `addProject` only
appends, leaving all existing records untouched; `addListener` and
`updateListeners` do not touch the sequence at all — so no operation ever
removes a record. -/
theorem store_frame_conditions (st : StoreState) (pid rid title desc : String)
    (ns : ProjectStatus) (people : ℚ) (l : Nat) :
    (moveProject st pid ns).projects.map Project.core =
      st.projects.map Project.core ∧
    (addProject st rid title desc people).projects =
      st.projects ++ [{ id := rid, title := title, description := desc,
                        people := people, status := ProjectStatus.Active }] ∧
    (addListener st l).projects = st.projects ∧
    (updateListeners st).projects = st.projects := by
  refine ⟨?_, rfl, rfl, rfl⟩
  cases hf : st.projects.find? (fun prj => prj.id == pid) with
  | none => simp [moveProject, hf]
  | some prj =>
    by_cases hs : prj.status ≠ ns
    · simp only [moveProject, hf, if_pos hs]
      exact setStatusFirst_map_core pid ns st.projects
    · simp only [moveProject, hf, if_neg hs]

/-- C2: if the first record matching the id exists and its status differs
from the new one, exactly that record's status is overwritten (all records
before it do not match the id, all records are otherwise untouched) and the
listeners are notified once; if the first match already has the new status,
or no record matches, the state — sequence, listeners and log alike — is
entirely unchanged: a silent no-op. -/
theorem moveProject_cases (st : StoreState) (pid : String) (ns : ProjectStatus) :
    (∀ prj, st.projects.find? (fun p => p.id == pid) = some prj →
      prj.status ≠ ns →
      ∃ i, ∃ h : i < st.projects.length,
        st.projects.get ⟨i, h⟩ = prj ∧
        (∀ j, ∀ hj : j < st.projects.length, j < i →
          (st.projects.get ⟨j, hj⟩).id ≠ pid) ∧
        (moveProject st pid ns).projects =
          st.projects.set i { prj with status := ns } ∧
        (moveProject st pid ns).listeners = st.listeners ∧
        (moveProject st pid ns).log =
          st.log ++ updateListenersCalls st.listeners
            (st.projects.set i { prj with status := ns })) ∧
    (∀ prj, st.projects.find? (fun p => p.id == pid) = some prj →
      prj.status = ns → moveProject st pid ns = st) ∧
    (st.projects.find? (fun p => p.id == pid) = none →
      moveProject st pid ns = st) := by
  refine ⟨?_, ?_, ?_⟩
  · intro prj hf hs
    obtain ⟨i, hi, hget, hbef, hset⟩ := find?_setStatusFirst pid ns st.projects prj hf
    have hmv : moveProject st pid ns =
        updateListeners { st with projects := setStatusFirst st.projects pid ns } := by
      simp only [moveProject, hf, if_pos hs]
    refine ⟨i, hi, hget, hbef, ?_, ?_, ?_⟩ <;>
      simp [hmv, updateListeners, hset]
  · intro prj hf hs
    simp [moveProject, hf, hs]
  · intro hf
    simp [moveProject, hf]

/-- C2 witness: moving the sample store's only project to the status it
already has is a complete no-op. -/
theorem moveProject_cases_witness :
    moveProject sampleState "0.5" ProjectStatus.Active = sampleState :=
  (moveProject_cases sampleState "0.5" ProjectStatus.Active).2.1
    { id := "0.5", title := "A", description := "d", people := 3,
      status := ProjectStatus.Active } (by decide) rfl

/-- C1 counterexample: `addProject` performs no freshness check on the
`Math.random().toString()` sample — if the sample's string form repeats
(here `"0.5"` drawn at two consecutive calls), the record appended by the
second call carries an id already present in the store, so the stored ids
are no longer pairwise distinct. -/
theorem addProject_id_collision :
    ¬ (((addProject (addProject initialState "0.5" "A" "a" 1) "0.5" "B" "b" 2).projects.map
        Project.id).Nodup) := by decide

/-- C1 (amended): `addProject` appends exactly one record at the end of the
sequence, carrying the given title, description and people count, status
`Active`, and the string form of the random sample drawn at that call as its
id; it leaves all previously stored records unchanged and then invokes
`notifyAll`.  The new id is distinct from the id of every record already in
the store whenever the drawn sample's string form does not already occur
among them — uniqueness is only as good as the samples, not enforced by the
code. -/
theorem addProject_spec (st : StoreState) (rid title desc : String) (people : ℚ) :
    (addProject st rid title desc people).projects =
      st.projects ++ [{ id := rid, title := title, description := desc,
                        people := people, status := ProjectStatus.Active }] ∧
    (addProject st rid title desc people).listeners = st.listeners ∧
    (addProject st rid title desc people).log =
      st.log ++ updateListenersCalls st.listeners
        (st.projects ++ [{ id := rid, title := title, description := desc,
                           people := people, status := ProjectStatus.Active }]) ∧
    ((st.projects.map Project.id).Nodup → rid ∉ st.projects.map Project.id →
      ((addProject st rid title desc people).projects.map Project.id).Nodup) := by
  refine ⟨rfl, rfl, rfl, ?_⟩
  intro hnd hni
  show ((st.projects ++ [({ id := rid, title := title, description := desc,
                            people := people,
                            status := ProjectStatus.Active } : Project)]).map
      Project.id).Nodup
  rw [List.map_append]
  refine List.Nodup.append hnd (List.nodup_singleton _) ?_
  intro x hx hmem
  rw [List.map_singleton, List.mem_singleton] at hmem
  subst hmem
  exact hni hx

/-- C1 witness: adding to the empty store with the sample `"0.9"` yields
pairwise-distinct stored ids. -/
theorem addProject_spec_witness :
    ((addProject initialState "0.9" "T" "D" 2).projects.map Project.id).Nodup :=
  (addProject_spec initialState "0.9" "T" "D" 2).2.2.2 (by decide) (by decide)

/-- C9 counterexample: in the reachable store `dupState` two records share
the id `"0.5"` — the first `Finished`, the second `Active` — so a record
with that id and status `Active` is present; yet moving that id to
`Finished` and back to `Active` does not restore the original sequence, and
the first of the two calls notifies no listener at all (the first match
already has the target status, a silent no-op). -/
theorem moveProject_roundTrip_counterexample :
    (dupState.projects.filter
      (fun p => p.id == "0.5" && p.status == ProjectStatus.Active)).length = 1 ∧
    (moveProject (moveProject dupState "0.5" ProjectStatus.Finished) "0.5"
        ProjectStatus.Active).projects ≠ dupState.projects ∧
    (moveProject dupState "0.5" ProjectStatus.Finished).log = dupState.log := by
  decide

/-- C9 (amended): whenever the FIRST record carrying the given id has status
`Active` — in particular whenever ids are unique and the record with that id
is `Active` — moving the id to `Finished` and then back to `Active` restores
the sequence to exactly its original content, and each of the two calls
performs exactly one notification round over the registered listeners. -/
theorem moveProject_roundTrip (st : StoreState) (pid : String) (prj : Project)
    (hf : st.projects.find? (fun p => p.id == pid) = some prj)
    (hA : prj.status = ProjectStatus.Active) :
    (moveProject (moveProject st pid ProjectStatus.Finished) pid
        ProjectStatus.Active).projects = st.projects ∧
    (moveProject (moveProject st pid ProjectStatus.Finished) pid
        ProjectStatus.Active).listeners = st.listeners ∧
    (moveProject (moveProject st pid ProjectStatus.Finished) pid
        ProjectStatus.Active).log =
      st.log ++
        updateListenersCalls st.listeners
          (setStatusFirst st.projects pid ProjectStatus.Finished) ++
        updateListenersCalls st.listeners st.projects := by
  have h1 : moveProject st pid ProjectStatus.Finished =
      updateListeners
        { st with projects := setStatusFirst st.projects pid ProjectStatus.Finished } := by
    simp [moveProject, hf, hA]
  have hf2 : (setStatusFirst st.projects pid ProjectStatus.Finished).find?
      (fun p => p.id == pid) = some { prj with status := ProjectStatus.Finished } :=
    find?_setStatusFirst_self pid ProjectStatus.Finished st.projects prj hf
  have hback : setStatusFirst (setStatusFirst st.projects pid ProjectStatus.Finished)
      pid ProjectStatus.Active = st.projects := by
    rw [setStatusFirst_setStatusFirst, ← hA]
    exact setStatusFirst_of_status_eq pid st.projects prj hf
  have h2 : moveProject
      (updateListeners
        { st with projects := setStatusFirst st.projects pid ProjectStatus.Finished })
      pid ProjectStatus.Active =
      updateListeners
        { updateListeners
            { st with projects := setStatusFirst st.projects pid ProjectStatus.Finished }
          with projects := st.projects } := by
    simp [moveProject, updateListeners, hf2, hback]
  rw [h1, h2]
  exact ⟨rfl, rfl, rfl⟩

/-- C9 witness: round trip on a one-project, one-listener store. -/
theorem moveProject_roundTrip_witness :
    (moveProject (moveProject roundTripState "0.5" ProjectStatus.Finished) "0.5"
        ProjectStatus.Active).projects = roundTripState.projects :=
  (moveProject_roundTrip roundTripState "0.5"
    { id := "0.5", title := "A", description := "d", people := 3,
      status := ProjectStatus.Active } (by decide) rfl).1

/-- C8: a list container's listener keeps exactly the records of the
received snapshot whose status matches its own fixed category, replacing its
previous subset; concretely, after creating project "A"/"desc!!"/3 the new
record is the active container's whole subset and absent from the finished
one, and after moving its id to `Finished` the next snapshot puts it in the
finished subset and drops it from the active one. -/
theorem listener_filter_spec :
    (∀ (ty : ProjectType) (old snap : List Project) (p : Project),
      p ∈ listenerStep ty old snap ↔ p ∈ snap ∧ p.status = statusFor ty) ∧
    relevantProjects ProjectType.active
        (addProject initialState "0.42" "A" "desc!!" 3).projects =
      [{ id := "0.42", title := "A", description := "desc!!", people := 3,
         status := ProjectStatus.Active }] ∧
    relevantProjects ProjectType.finished
        (addProject initialState "0.42" "A" "desc!!" 3).projects = [] ∧
    relevantProjects ProjectType.active
        (moveProject (addProject initialState "0.42" "A" "desc!!" 3) "0.42"
          ProjectStatus.Finished).projects = [] ∧
    relevantProjects ProjectType.finished
        (moveProject (addProject initialState "0.42" "A" "desc!!" 3) "0.42"
          ProjectStatus.Finished).projects =
      [{ id := "0.42", title := "A", description := "desc!!", people := 3,
         status := ProjectStatus.Finished }] := by
  refine ⟨?_, by decide, by decide, by decide, by decide⟩
  intro ty old snap p
  cases ty <;> simp [listenerStep, relevantProjects, statusFor, List.mem_filter]
